import Mathlib

/-!
Verification development for the election_events service.

The definitions below are a shallow embedding of the TypeScript source:
entities (src/entities/User.ts, Event.ts, part_001 Participant, CheckInLog.ts)
become structures, the persistent store becomes an explicit record of lists,
and the route handlers (src/routes/participants.ts, src/routes/events.ts)
become pure functions from a store, the authenticated account and the request
body to a response together with the successor store.  Machine-generated uuid
keys are modelled as natural numbers handed out by counters in the store;
calendar timestamps are natural numbers and the midnight normalisation
performed by setHours(0,0,0,0) becomes division by the length of a day.
-/

namespace ElectionEvents

/-- Truthiness of an optional string drawn from a JSON body: absent fields and
the empty string are falsy, every other string is truthy.  This is the meaning
of the if (!field) guards in the handlers. -/
def truthy : Option String → Bool
  | none => false
  | some s => !(s == "")

/-- Abstraction of the JavaScript Date constructor applied to a caller string:
a non empty digit string denoting a calendar day is mapped to that day
number, anything else to none, the counterpart of an Invalid Date.  The
handlers in the source never inspect validity of the parse, which is the
point this model preserves. -/
def jsNewDate (s : String) : Option Nat :=
  match s.data with
  | [] => none
  | cs =>
    if cs.all Char.isDigit then
      some (cs.foldl (fun n c => 10 * n + (c.toNat - 48)) 0)
    else none

/-- Midnight normalisation of a timestamp, the counterpart of
today.setHours(0, 0, 0, 0): timestamps within one calendar day collapse to the
same day number. -/
def dayOf (t : Nat) : Nat :=
  t / 86400

/-- UserRole enum of src/entities/User.ts: admin is the Owner role of the spec,
user is the Delegate role. -/
inductive UserRole where
  | admin
  | user
deriving DecidableEq

/-- User entity of src/entities/User.ts restricted to the fields the claims
touch: primary key, role and the nullable adminId self reference. -/
structure User where
  id : Nat
  role : UserRole
  adminId : Option Nat
deriving DecidableEq

/-- Event entity of src/entities/Event.ts: county is a non nullable column,
constituency and ward are nullable. -/
structure Event where
  eventId : String
  eventName : String
  county : String
  constituency : Option String
  ward : Option String
  createdById : Nat
deriving DecidableEq

/-- Participant entity (the variant with the checkInLogs relation): per event
identity record keyed by eventId and idNumber, with the mutable demographic
columns.  The dateOfBirth column holds the value produced by the Date
constructor, hence an Option. -/
structure Participant where
  id : Nat
  idNumber : String
  name : String
  dateOfBirth : Option Nat
  sex : String
  county : Option String
  constituency : Option String
  ward : Option String
  pollingCenter : Option String
  eventId : String
deriving DecidableEq

/-- CheckInLog entity of src/entities/CheckInLog.ts: one attendance fact with
the normalised checkInDate and the exact checkedInAt timestamp. -/
structure CheckInLog where
  id : Nat
  participantId : Nat
  eventId : String
  checkedInById : Nat
  checkInDate : Nat
  checkedInAt : Nat
deriving DecidableEq

/-- The persistent store: the three tables the claims touch plus the counters
that stand in for uuid generation of participant and log primary keys. -/
structure Store where
  events : List Event
  participants : List Participant
  logs : List CheckInLog
  nextPid : Nat
  nextLogId : Nat
deriving DecidableEq

def emptyStore : Store :=
  ⟨[], [], [], 0, 0⟩

/-- Responses the handlers produce, keyed by the distinct messages of the
source; okCreated carries the log id and participant id returned in the 201
body of the check in route. -/
inductive Resp where
  | validationErr
  | preconditionErr
  | alreadyCheckedIn
  | notFound
  | forbidden
  | okCreated (logId : Nat) (pid : Nat)
  | okDeleted
  | internalErr
deriving DecidableEq

/-- HTTP status of each response, as sent by the source. -/
def Resp.status : Resp → Nat
  | .validationErr => 400
  | .preconditionErr => 400
  | .alreadyCheckedIn => 400
  | .notFound => 404
  | .forbidden => 403
  | .okCreated _ _ => 201
  | .okDeleted => 200
  | .internalErr => 500

/-- checkEventAccess of src/routes/participants.ts lines 14 to 23: an admin is
permitted exactly on events it created, a user is permitted exactly when its
adminId is non null and equals the creator of the event. -/
def checkEventAccess (event : Event) (user : User) : Bool :=
  match user.role with
  | .admin => event.createdById == user.id
  | .user =>
    match user.adminId with
    | none => false
    | some a => event.createdById == a

/-- findOne on the events repository by primary key. -/
def findEvent (s : Store) (eid : String) : Option Event :=
  s.events.find? fun e => e.eventId == eid

/-- Predicate of the participant findOne in the check in route: match on the
eventId and idNumber pair. -/
def keyMatch (eid idn : String) (p : Participant) : Bool :=
  p.eventId == eid && p.idNumber == idn

/-- findOne on the participants repository by the eventId and idNumber pair. -/
def findByKey (ps : List Participant) (eid idn : String) : Option Participant :=
  ps.find? (keyMatch eid idn)

/-- The x || null idiom applied to the optional demographic fields. -/
def orNull (x : Option String) : Option String :=
  if truthy x then x else none

/-- Bodies of POST /participants/checkin; every JSON field may be absent. -/
structure CheckinBody where
  eventId : Option String
  idNumber : Option String
  name : Option String
  dateOfBirth : Option String
  sex : Option String
  county : Option String
  constituency : Option String
  ward : Option String
  pollingCenter : Option String

/-- The five required field presence checks at the top of the check in
handler. -/
def requiredPresent (b : CheckinBody) : Bool :=
  truthy b.eventId && truthy b.idNumber && truthy b.name &&
    truthy b.dateOfBirth && truthy b.sex

/-- The participant the create branch of the check in handler persists: fresh
primary key from the counter, demographics taken from the body with the
|| null normalisation. -/
def freshParticipant (s : Store) (eid : String) (b : CheckinBody) : Participant :=
  { id := s.nextPid
    idNumber := b.idNumber.getD ""
    name := b.name.getD ""
    dateOfBirth := jsNewDate (b.dateOfBirth.getD "")
    sex := b.sex.getD ""
    county := orNull b.county
    constituency := orNull b.constituency
    ward := orNull b.ward
    pollingCenter := orNull b.pollingCenter
    eventId := eid }

/-- The update branch of the check in handler: every mutable demographic field
of the found participant is overwritten from the body, keys are untouched. -/
def demAppl (b : CheckinBody) (q : Participant) : Participant :=
  { q with
    name := b.name.getD ""
    dateOfBirth := jsNewDate (b.dateOfBirth.getD "")
    sex := b.sex.getD ""
    county := orNull b.county
    constituency := orNull b.constituency
    ward := orNull b.ward
    pollingCenter := orNull b.pollingCenter }

/-- Find or create participant block of the check in handler, lines 161 to 193
of src/routes/participants.ts.  A save of an existing entity writes back by
primary key. -/
def resolveParticipant (s : Store) (eid : String) (b : CheckinBody) :
    Participant × Store :=
  match findByKey s.participants eid (b.idNumber.getD "") with
  | none =>
    let p := freshParticipant s eid b
    (p, { s with participants := p :: s.participants, nextPid := s.nextPid + 1 })
  | some q =>
    let p := demAppl b q
    (p, { s with participants := s.participants.map fun r => if r.id == q.id then p else r })

/-- One row matches a given participant, event and day triple. -/
def tripleMatch (l2 : CheckInLog) (pid : Nat) (eid : String) (d : Nat) : Bool :=
  l2.participantId == pid && l2.eventId == eid && l2.checkInDate == d

/-- Some row of the log table matches the triple; this is the findOne of the
optimistic pre check and also the predicate of the unique index. -/
def hasTriple (ls : List CheckInLog) (pid : Nat) (eid : String) (d : Nat) : Bool :=
  ls.any fun l2 => tripleMatch l2 pid eid d

/-- Storage level insert into check_in_logs.  The guard is the unique index
declared on the entity, Index of participantId, eventId and checkInDate with
unique true in src/entities/CheckInLog.ts line 15: an insert whose triple is
already present is rejected by the store itself, whatever the handler
believed. -/
def insertLog (s : Store) (l : CheckInLog) : Option Store :=
  if hasTriple s.logs l.participantId l.eventId l.checkInDate then none
  else some { s with logs := l :: s.logs, nextLogId := s.nextLogId + 1 }

/-- Ledger phase of the check in handler, lines 195 to 239 of
src/routes/participants.ts: the optimistic findOne pre check answering 400
when a row for the triple already exists, then the save of the new log row.
The handler awaits the store between these two operations, so other
concurrently handled requests may commit writes in between; interfere is the
combined effect of those writes, and the purely sequential handler passes the
identity.  A save rejected by the unique index raises, and the only catch
around it is the generic outer one, which answers 500 Internal server
error. -/
def checkinLedger (interfere : Store → Store) (pr : Participant × Store) (u : User)
    (eid : String) (now : Nat) : Resp × Store :=
  if hasTriple pr.2.logs pr.1.id eid (dayOf now) then (Resp.alreadyCheckedIn, pr.2)
  else
    match insertLog (interfere pr.2)
        ⟨(interfere pr.2).nextLogId, pr.1.id, eid, u.id, dayOf now, now⟩ with
    | some s3 => (Resp.okCreated (interfere pr.2).nextLogId pr.1.id, s3)
    | none => (Resp.internalErr, interfere pr.2)

/-- POST /participants/checkin, lines 116 to 248 of src/routes/participants.ts:
required field validation, event resolution, access check, participant
resolution, then the ledger phase. -/
def checkinWith (interfere : Store → Store) (s : Store) (u : User)
    (b : CheckinBody) (now : Nat) : Resp × Store :=
  if requiredPresent b then
    match findEvent s (b.eventId.getD "") with
    | none => (Resp.notFound, s)
    | some ev =>
      if checkEventAccess ev u then
        checkinLedger interfere (resolveParticipant s (b.eventId.getD "") b) u
          (b.eventId.getD "") now
      else (Resp.forbidden, s)
  else (Resp.validationErr, s)

/-- The sequential check in handler: no interference between pre check and
insert. -/
def checkin : Store → User → CheckinBody → Nat → Resp × Store :=
  checkinWith id

/-- Bodies of POST /participants/search. -/
structure SearchBody where
  eventId : Option String
  idNumber : Option String

/-- Filters handed to the external voter lookup gateway by the search route:
county always, constituency and ward only when assigned. -/
structure Filters where
  county : String
  constituency : Option String
  ward : Option String
deriving DecidableEq

/-- POST /participants/search, lines 26 to 113 of src/routes/participants.ts,
up to and excluding the gateway call: the route either fails before calling
the gateway or produces the filter object it passes to lookupVoter.  The
constituency and ward fields are assigned by two independent truthiness
guards. -/
def searchFilters (s : Store) (u : User) (b : SearchBody) : Except Resp Filters :=
  if truthy b.eventId && truthy b.idNumber then
    match findEvent s (b.eventId.getD "") with
    | none => Except.error Resp.notFound
    | some ev =>
      if checkEventAccess ev u then
        if ev.county == "" then Except.error Resp.preconditionErr
        else
          Except.ok
            { county := ev.county
              constituency := if truthy ev.constituency then ev.constituency else none
              ward := if truthy ev.ward then ev.ward else none }
      else Except.error Resp.forbidden
  else Except.error Resp.validationErr

/-- Modelled from the spec: the requireAdmin middleware of src/middleware/auth
is imported by the delete route but its file is not part of the sources; per
the spec only Owner accounts pass it, every Delegate is rejected with 403. -/
def requireAdmin (u : User) : Bool :=
  u.role == UserRole.admin

/-- Storage level removal of an event row.  The foreign key semantics come
from the entity decorators: check_in_logs declares onDelete CASCADE towards
events, so its rows for the event go away with it, while the participants
ManyToOne towards events in the Participant entity declares no onDelete
action, so a participant row referencing the event blocks the delete and the
repository remove raises. -/
def removeEventCascade (s : Store) (eid : String) : Option Store :=
  if s.participants.any fun p => p.eventId == eid then none
  else
    some { s with
      events := s.events.filter fun e => !(e.eventId == eid)
      logs := s.logs.filter fun l => !(l.eventId == eid) }

/-- DELETE /events/:eventId, lines 327 to 370 of src/routes/events.ts: behind
requireAdmin, only the creating owner may delete; a raising remove is caught
by the generic outer catch and answered 500. -/
def deleteEvent (s : Store) (u : User) (eid : String) : Resp × Store :=
  if requireAdmin u then
    match findEvent s eid with
    | none => (Resp.notFound, s)
    | some ev =>
      if ev.createdById == u.id then
        match removeEventCascade s eid with
        | some s2 => (Resp.okDeleted, s2)
        | none => (Resp.internalErr, s)
      else (Resp.forbidden, s)
  else (Resp.forbidden, s)

/-- Atomic storage operations the application performs against the shared
store.  Every route handler is a composition of these, and concurrent
interleavings of handlers also only ever commit these operations, so closure
under this relation covers every state the running system can reach.  Note
that the log insert is only available through insertLog, whose guard is the
unique index of the entity. -/
inductive StoreStep : Store → Store → Prop where
  | createEvent (s : Store) (ev : Event) :
      StoreStep s { s with events := ev :: s.events }
  | createPart (s : Store) (p : Participant) :
      StoreStep s { s with participants := p :: s.participants, nextPid := s.nextPid + 1 }
  | savePart (s : Store) (p : Participant) :
      StoreStep s { s with participants := s.participants.map fun r => if r.id == p.id then p else r }
  | logWrite (s s2 : Store) (l : CheckInLog) (h : insertLog s l = some s2) :
      StoreStep s s2
  | eventRemove (s s2 : Store) (eid : String) (h : removeEventCascade s eid = some s2) :
      StoreStep s s2

/-- States reachable from the empty store through the storage operations. -/
def ReachableStore (s : Store) : Prop :=
  Relation.ReflTransGen StoreStep emptyStore s

/-- No row of the log table matches the triple of a row before it. -/
def logsOkB (s : Store) : Prop :=
  s.logs.Pairwise fun a b => tripleMatch b a.participantId a.eventId a.checkInDate = false

/-- Outcome of one check in attempt for a fixed participant, event and day
triple: the attempt won the insert, or its pre check saw the row and the
handler answered AlreadyCheckedIn, or its insert was rejected by the unique
index and the outer catch answered 500. -/
inductive Outcome where
  | recorded
  | already
  | internal
deriving DecidableEq

/-- One concurrent check in attempt for the fixed triple: whether its pre
check has run, what the pre check saw, and its final outcome once settled. -/
structure Attempt where
  checked : Bool
  sawRow : Bool
  outcome : Option Outcome
deriving DecidableEq

/-- Shared state of the ledger for one fixed participant, event and day
triple, together with the per attempt states of the concurrent requests. -/
structure Ledger where
  recorded : Bool
  attempts : List Attempt
deriving DecidableEq

/-- Initial ledger: the triple is Unrecorded and none of the n attempts has
run yet. -/
def initLedger (n : Nat) : Ledger :=
  ⟨false, List.replicate n ⟨false, false, none⟩⟩

/-- Interleaving semantics of the check in handler restricted to the ledger of
one triple.  Each attempt performs two awaited storage operations: the
findOne pre check, which observes whether the row exists at that instant and
settles the attempt with AlreadyCheckedIn when it does, and otherwise the
constraint checked insert, which either commits the row or is rejected by the
unique index, in which case the handler answers through its generic catch. -/
inductive LStep : Ledger → Ledger → Prop where
  | precheckSeen (st : Ledger) (i : Nat) (h : i < st.attempts.length)
      (hc : (st.attempts.get ⟨i, h⟩).checked = false)
      (hr : st.recorded = true) :
      LStep st ⟨true, st.attempts.set i ⟨true, true, some Outcome.already⟩⟩
  | precheckFree (st : Ledger) (i : Nat) (h : i < st.attempts.length)
      (hc : (st.attempts.get ⟨i, h⟩).checked = false)
      (hr : st.recorded = false) :
      LStep st ⟨false, st.attempts.set i ⟨true, false, none⟩⟩
  | insertWin (st : Ledger) (i : Nat) (h : i < st.attempts.length)
      (hc : (st.attempts.get ⟨i, h⟩).checked = true)
      (hs : (st.attempts.get ⟨i, h⟩).sawRow = false)
      (ho : (st.attempts.get ⟨i, h⟩).outcome = none)
      (hr : st.recorded = false) :
      LStep st ⟨true, st.attempts.set i ⟨true, false, some Outcome.recorded⟩⟩
  | insertHit (st : Ledger) (i : Nat) (h : i < st.attempts.length)
      (hc : (st.attempts.get ⟨i, h⟩).checked = true)
      (hs : (st.attempts.get ⟨i, h⟩).sawRow = false)
      (ho : (st.attempts.get ⟨i, h⟩).outcome = none)
      (hr : st.recorded = true) :
      LStep st ⟨true, st.attempts.set i ⟨true, false, some Outcome.internal⟩⟩

/-- Number of attempts that performed the Unrecorded to Recorded transition. -/
def winnersL (st : Ledger) : Nat :=
  st.attempts.countP fun a => a.outcome == some Outcome.recorded

/-- A check in body that carries the five required fields, with the eventId
and idNumber values it designates named. -/
@[reducible] def validBody (b : CheckinBody) (eid idn : String) : Prop :=
  b.eventId = some eid ∧ b.idNumber = some idn ∧ eid ≠ "" ∧ idn ≠ "" ∧
    truthy b.name = true ∧ truthy b.dateOfBirth = true ∧ truthy b.sex = true

/-- Primary key uniqueness of the participants table, guaranteed by the
store since id is the generated primary key column. -/
@[reducible] def pkUnique (ps : List Participant) : Prop :=
  ps.Pairwise fun a b => a.id ≠ b.id

/-- Invariant of the ledger interleaving: the attempt count is stable, no
attempt settles before the row exists, the number of winners is governed by
whether the row exists, and an attempt that has not run its pre check is not
settled. -/
def LedgerInv (n : Nat) (st : Ledger) : Prop :=
  st.attempts.length = n ∧
  (st.recorded = false → ∀ a ∈ st.attempts, a.outcome = none) ∧
  winnersL st = cond st.recorded 1 0 ∧
  (∀ a ∈ st.attempts, a.checked = false → a.outcome = none)

/-- Concrete store with one event, used by scenario witnesses. -/
def wStore : Store :=
  ⟨[⟨"e1", "Rally", "R", none, none, 1⟩], [], [], 0, 0⟩

/-- Concrete Owner account that created the event of wStore. -/
def wOwner : User :=
  ⟨1, UserRole.admin, none⟩

/-- The event stored in wStore. -/
def wEvent : Event :=
  ⟨"e1", "Rally", "R", none, none, 1⟩

/-- Concrete check in body with all required fields present. -/
def wBody : CheckinBody :=
  ⟨some "e1", some "123", some "Ann", some "7300", some "F", none, none, none, none⟩

/-- Second concrete body for the same key with different demographics. -/
def wBody2 : CheckinBody :=
  ⟨some "e1", some "123", some "Beth", some "7301", some "F", some "K", none, none, none⟩

/-- Claim C5: checkEventAccess is a pure total function and decides access
exactly as stated: an admin account is permitted iff it created the event; a
user account is permitted iff its adminId is non null and equals the creator
of the event; a user account with null adminId is always denied. -/
theorem c5_access_rule (ev : Event) (u : User) :
    (checkEventAccess ev u = true ↔
      ((u.role = UserRole.admin ∧ ev.createdById = u.id) ∨
       (u.role = UserRole.user ∧ ∃ a, u.adminId = some a ∧ ev.createdById = a))) ∧
    (u.role = UserRole.user → u.adminId = none → checkEventAccess ev u = false) := by
  constructor
  · cases hu : u.role with
    | admin => cases ha : u.adminId <;> simp [checkEventAccess, hu, ha]
    | user => cases ha : u.adminId <;> simp [checkEventAccess, hu, ha]
  · intro hr ha
    simp [checkEventAccess, hr, ha]

theorem logsOkB_empty : logsOkB emptyStore :=
  List.Pairwise.nil

theorem logsOkB_step {s s2 : Store} (st : StoreStep s s2) (h : logsOkB s) : logsOkB s2 := by
  cases st with
  | createEvent ev => exact h
  | createPart p => exact h
  | savePart p => exact h
  | logWrite s2 l hins =>
    unfold insertLog at hins
    split at hins
    · cases hins
    · rename_i hguard
      cases hins
      refine List.Pairwise.cons ?_ h
      intro b hb
      rw [Bool.not_eq_true] at hguard
      cases hx : tripleMatch b l.participantId l.eventId l.checkInDate with
      | false => rfl
      | true =>
        have hany : hasTriple s.logs l.participantId l.eventId l.checkInDate = true :=
          List.any_eq_true.mpr ⟨b, hb, hx⟩
        rw [hguard] at hany
        cases hany
  | eventRemove s2 eid hrm =>
    unfold removeEventCascade at hrm
    split at hrm
    · cases hrm
    · cases hrm
      exact h.sublist (List.filter_sublist s.logs)

/-- Claim C1: in every reachable state of the store no two check_in_logs rows
share the same participantId, eventId, checkInDate triple.  The invariant is
carried by the storage layer itself: the only operation that grows the log
table is insertLog, whose rejection guard is the unique index declared on the
CheckInLog entity, so the invariant survives arbitrary interleavings of
request handlers and does not depend on the pre check of the check in
route. -/
theorem c1_storage_uniqueness (s : Store) (h : ReachableStore s) :
    s.logs.Pairwise fun a b =>
      ¬(a.participantId = b.participantId ∧ a.eventId = b.eventId ∧
        a.checkInDate = b.checkInDate) := by
  have hb : logsOkB s := by
    induction h with
    | refl => exact logsOkB_empty
    | tail _ hstep ih => exact logsOkB_step hstep ih
  refine hb.imp ?_
  intro a b hab hcontra
  rcases hcontra with ⟨h1, h2, h3⟩
  simp [tripleMatch, h1, h2, h3] at hab

/-- Witness for C1 at the empty store, reachable by the empty trace. -/
theorem c1_storage_uniqueness_witness :
    ReachableStore emptyStore ∧
      emptyStore.logs.Pairwise fun a b =>
        ¬(a.participantId = b.participantId ∧ a.eventId = b.eventId ∧
          a.checkInDate = b.checkInDate) :=
  ⟨Relation.ReflTransGen.refl,
    c1_storage_uniqueness emptyStore Relation.ReflTransGen.refl⟩

theorem countP_set_add (l : List Attempt) (i : Nat) (h : i < l.length) (b : Attempt)
    (p : Attempt → Bool) :
    (l.set i b).countP p + cond (p (l.get ⟨i, h⟩)) 1 0 =
      l.countP p + cond (p b) 1 0 := by
  induction l generalizing i with
  | nil => cases h
  | cons a t ih =>
    cases i with
    | zero =>
      simp only [List.set, List.countP_cons, List.get, Bool.cond_eq_ite]
      omega
    | succ j =>
      have hj : j < t.length := by simpa using h
      have hrec := ih j hj
      simp only [List.set, List.countP_cons, List.get, Bool.cond_eq_ite] at hrec ⊢
      omega

theorem ledgerInv_init (n : Nat) : LedgerInv n (initLedger n) := by
  refine ⟨List.length_replicate n _, ?_, ?_, ?_⟩
  · intro _ a ha
    rw [List.eq_of_mem_replicate ha]
  · have hz : winnersL (initLedger n) = 0 := by
      apply List.countP_eq_zero.mpr
      intro a ha
      rw [List.eq_of_mem_replicate ha]
      simp
    rw [hz]
    rfl
  · intro a ha _
    rw [List.eq_of_mem_replicate ha]

theorem ledgerInv_step {n : Nat} {st st2 : Ledger} (hs : LStep st st2)
    (h : LedgerInv n st) : LedgerInv n st2 := by
  obtain ⟨hlen, hnone, hwin, hco⟩ := h
  have e1 : ((none : Option Outcome) == some Outcome.recorded) = false := rfl
  have e2 : ((some Outcome.already : Option Outcome) == some Outcome.recorded) = false := rfl
  have e3 : ((some Outcome.recorded : Option Outcome) == some Outcome.recorded) = true := rfl
  have e5 : ((some Outcome.internal : Option Outcome) == some Outcome.recorded) = false := rfl
  cases hs with
  | precheckSeen i hi hc hr =>
    have hold : (st.attempts.get ⟨i, hi⟩).outcome = none :=
      hco _ (st.attempts.get_mem i hi) hc
    have hcount := countP_set_add st.attempts i hi ⟨true, true, some Outcome.already⟩
      (fun a => a.outcome == some Outcome.recorded)
    simp only [hold, e1, e2, Bool.cond_false, Nat.add_zero] at hcount
    refine ⟨by simpa using hlen, ?_, ?_, ?_⟩
    · intro hr2
      simp at hr2
    · rw [hr] at hwin
      exact hcount.trans hwin
    · intro a ha hch
      rcases List.mem_or_eq_of_mem_set ha with hmem | heq
      · exact hco a hmem hch
      · rw [heq] at hch
        simp at hch
  | precheckFree i hi hc hr =>
    have hold : (st.attempts.get ⟨i, hi⟩).outcome = none :=
      hco _ (st.attempts.get_mem i hi) hc
    have hcount := countP_set_add st.attempts i hi ⟨true, false, none⟩
      (fun a => a.outcome == some Outcome.recorded)
    simp only [hold, e1, Bool.cond_false, Nat.add_zero] at hcount
    refine ⟨by simpa using hlen, ?_, ?_, ?_⟩
    · intro _ a ha
      rcases List.mem_or_eq_of_mem_set ha with hmem | heq
      · exact hnone hr a hmem
      · rw [heq]
    · rw [hr] at hwin
      exact hcount.trans hwin
    · intro a ha hch
      rcases List.mem_or_eq_of_mem_set ha with hmem | heq
      · exact hco a hmem hch
      · rw [heq]
  | insertWin i hi hc hsr ho hr =>
    have hcount := countP_set_add st.attempts i hi ⟨true, false, some Outcome.recorded⟩
      (fun a => a.outcome == some Outcome.recorded)
    simp only [ho, e1, e3, Bool.cond_false, Bool.cond_true, Nat.add_zero] at hcount
    refine ⟨by simpa using hlen, ?_, ?_, ?_⟩
    · intro hr2
      simp at hr2
    · rw [hr] at hwin
      have h0 : st.attempts.countP (fun a => a.outcome == some Outcome.recorded) = 0 := hwin
      show (st.attempts.set i (⟨true, false, some Outcome.recorded⟩ : Attempt)).countP
          (fun a => a.outcome == some Outcome.recorded) = 1
      omega
    · intro a ha hch
      rcases List.mem_or_eq_of_mem_set ha with hmem | heq
      · exact hco a hmem hch
      · rw [heq] at hch
        simp at hch
  | insertHit i hi hc hsr ho hr =>
    have hcount := countP_set_add st.attempts i hi ⟨true, false, some Outcome.internal⟩
      (fun a => a.outcome == some Outcome.recorded)
    simp only [ho, e1, e5, Bool.cond_false, Nat.add_zero] at hcount
    refine ⟨by simpa using hlen, ?_, ?_, ?_⟩
    · intro hr2
      simp at hr2
    · rw [hr] at hwin
      have h1 : st.attempts.countP (fun a => a.outcome == some Outcome.recorded) = 1 := hwin
      show (st.attempts.set i (⟨true, false, some Outcome.internal⟩ : Attempt)).countP
          (fun a => a.outcome == some Outcome.recorded) = 1
      omega
    · intro a ha hch
      rcases List.mem_or_eq_of_mem_set ha with hmem | heq
      · exact hco a hmem hch
      · rw [heq] at hch
        simp at hch

theorem ledgerInv_reachable {n : Nat} {st : Ledger}
    (hreach : Relation.ReflTransGen LStep (initLedger n) st) : LedgerInv n st := by
  induction hreach with
  | refl => exact ledgerInv_init n
  | tail _ hstep ih => exact ledgerInv_step hstep ih

/-- Claim C4 as amended: among any set of concurrently executing check in
attempts for one valid participant, event and day triple, exactly one attempt
performs the Unrecorded to Recorded transition and no attempt is treated as a
second success; every other attempt fails, observing either the
AlreadyCheckedIn conflict, when its pre check saw the winning row, or the
untranslated unique index rejection, which the handler surfaces as a generic
internal error.  The claim as stated, every loser observing AlreadyCheckedIn,
is refuted by the counterexample trace below. -/
theorem c4_one_winner (n : Nat) (st : Ledger) (hn : 0 < n)
    (hreach : Relation.ReflTransGen LStep (initLedger n) st)
    (hdone : ∀ a ∈ st.attempts, a.outcome.isSome = true) :
    winnersL st = 1 ∧
      ∀ a ∈ st.attempts, a.outcome = some Outcome.recorded ∨
        a.outcome = some Outcome.already ∨ a.outcome = some Outcome.internal := by
  obtain ⟨hlen, hnone, hwin, _⟩ := ledgerInv_reachable hreach
  have hrec : st.recorded = true := by
    by_contra hr
    rw [Bool.not_eq_true] at hr
    obtain ⟨a, ha⟩ := List.exists_mem_of_length_pos (by rw [hlen]; exact hn)
    have h1 := hnone hr a ha
    have h2 := hdone a ha
    rw [h1] at h2
    cases h2
  constructor
  · rw [hrec] at hwin
    exact hwin
  · intro a ha
    have h2 := hdone a ha
    cases hoa : a.outcome with
    | none => rw [hoa] at h2; cases h2
    | some o => cases o <;> simp [hoa]

/-- Witness for C4: a single attempt that prechecks and then wins. -/
theorem c4_one_winner_witness :
    winnersL ⟨true, [⟨true, false, some Outcome.recorded⟩]⟩ = 1 ∧
      ∀ a ∈ (Ledger.mk true [⟨true, false, some Outcome.recorded⟩]).attempts,
        a.outcome = some Outcome.recorded ∨ a.outcome = some Outcome.already ∨
          a.outcome = some Outcome.internal :=
  c4_one_winner 1 ⟨true, [⟨true, false, some Outcome.recorded⟩]⟩ (by decide)
    (Relation.ReflTransGen.head
      (LStep.precheckFree (initLedger 1) 0 (by decide) (by decide) rfl)
      (Relation.ReflTransGen.head
        (LStep.insertWin ⟨false, [⟨true, false, none⟩]⟩ 0 (by decide) rfl rfl rfl rfl)
        Relation.ReflTransGen.refl))
    (by decide)

/-- Counterexample for C4 as stated: a complete two attempt execution in which
both pre checks pass before either insert, the first insert wins and the
second is rejected by the unique index, so the losing attempt finishes with
the internal error outcome, not AlreadyCheckedIn. -/
theorem c4_losers_counterexample :
    Relation.ReflTransGen LStep (initLedger 2)
        ⟨true, [⟨true, false, some Outcome.recorded⟩, ⟨true, false, some Outcome.internal⟩]⟩ ∧
      (∀ a ∈ (Ledger.mk true
          [⟨true, false, some Outcome.recorded⟩, ⟨true, false, some Outcome.internal⟩]).attempts,
        a.outcome.isSome = true) ∧
      ¬(∀ a ∈ (Ledger.mk true
          [⟨true, false, some Outcome.recorded⟩, ⟨true, false, some Outcome.internal⟩]).attempts,
        a.outcome = some Outcome.recorded ∨ a.outcome = some Outcome.already) := by
  refine ⟨?_, by decide, by decide⟩
  exact Relation.ReflTransGen.head
    (LStep.precheckFree (initLedger 2) 0 (by decide) (by decide) rfl)
    (Relation.ReflTransGen.head
      (LStep.precheckFree ⟨false, [⟨true, false, none⟩, ⟨false, false, none⟩]⟩ 1
        (by decide) (by decide) rfl)
      (Relation.ReflTransGen.head
        (LStep.insertWin ⟨false, [⟨true, false, none⟩, ⟨true, false, none⟩]⟩ 0
          (by decide) rfl rfl rfl rfl)
        (Relation.ReflTransGen.head
          (LStep.insertHit ⟨true, [⟨true, false, some Outcome.recorded⟩, ⟨true, false, none⟩]⟩ 1
            (by decide) rfl rfl rfl rfl)
          Relation.ReflTransGen.refl)))

theorem requiredPresent_of_valid {b : CheckinBody} {eid idn : String}
    (hb : validBody b eid idn) : requiredPresent b = true := by
  obtain ⟨he, hi, hne, hni, hn, hd, hs⟩ := hb
  have h1 : truthy b.eventId = true := by rw [he]; simp [truthy, hne]
  have h2 : truthy b.idNumber = true := by rw [hi]; simp [truthy, hni]
  simp [requiredPresent, h1, h2, hn, hd, hs]

theorem checkinLedger_ne_validation (f : Store → Store) (pr : Participant × Store)
    (u : User) (eid : String) (now : Nat) :
    (checkinLedger f pr u eid now).1 ≠ Resp.validationErr := by
  unfold checkinLedger
  split
  · simp
  · split <;> simp

/-- Claim C10: a check in request whose five required fields are present but
whose eventId matches no event is answered 404 Event not found, and the store
is left untouched: no participant row is created or updated and no log row is
written. -/
theorem c10_unknown_event_404 (s : Store) (u : User) (b : CheckinBody) (now : Nat)
    (hp : requiredPresent b = true) (hev : findEvent s (b.eventId.getD "") = none) :
    checkin s u b now = (Resp.notFound, s) := by
  unfold checkin checkinWith
  rw [hp, hev]
  rfl

/-- Witness for C10: a concrete request against a store with no events. -/
theorem c10_unknown_event_404_witness :
    checkin emptyStore ⟨1, UserRole.admin, none⟩
      ⟨some "e1", some "123", some "Ann", some "7300", some "F",
        none, none, none, none⟩ 0 = (Resp.notFound, emptyStore) :=
  c10_unknown_event_404 emptyStore ⟨1, UserRole.admin, none⟩
    ⟨some "e1", some "123", some "Ann", some "7300", some "F",
      none, none, none, none⟩ 0 (by decide) (by decide)

/-- Claim C8 as amended: the check in handler answers 400 ValidationError,
leaving the store untouched, exactly when one of eventId, idNumber, name,
dateOfBirth or sex is missing or empty.  Presence is the only validation the
handler performs: a request whose five fields are present is never answered
ValidationError, even when the supplied dateOfBirth does not parse to a valid
calendar date. -/
theorem c8_presence_only (s : Store) (u : User) (b : CheckinBody) (now : Nat) :
    (requiredPresent b = false → checkin s u b now = (Resp.validationErr, s)) ∧
    (requiredPresent b = true → (checkin s u b now).1 ≠ Resp.validationErr) := by
  constructor
  · intro hp
    unfold checkin checkinWith
    rw [hp]
    rfl
  · intro hp
    unfold checkin checkinWith
    rw [hp]
    cases hfe : findEvent s (b.eventId.getD "") with
    | none => simp
    | some ev =>
      show (if checkEventAccess ev u then
          checkinLedger id (resolveParticipant s (b.eventId.getD "") b) u
            (b.eventId.getD "") now
        else (Resp.forbidden, s)).1 ≠ Resp.validationErr
      split
      · exact checkinLedger_ne_validation _ _ _ _ _
      · simp

/-- Witness for C8: a request with the name field missing is answered 400 and
changes nothing; the counterexample below exercises the other conjunct. -/
theorem c8_presence_only_witness :
    checkin emptyStore ⟨1, UserRole.admin, none⟩
      ⟨some "e1", some "123", none, some "7300", some "F",
        none, none, none, none⟩ 0 = (Resp.validationErr, emptyStore) :=
  (c8_presence_only emptyStore ⟨1, UserRole.admin, none⟩
    ⟨some "e1", some "123", none, some "7300", some "F",
      none, none, none, none⟩ 0).1 (by decide)

/-- Counterexample for C8 as stated: every required field is present but the
dateOfBirth does not parse to a calendar date; the handler does not answer
400 ValidationError, it proceeds, creates the participant with the invalid
stored date of birth, and records the attendance with 201. -/
theorem c8_dob_counterexample :
    jsNewDate "not-a-date" = none ∧
    (checkin ⟨[⟨"e1", "Rally", "R", none, none, 1⟩], [], [], 0, 0⟩
        ⟨1, UserRole.admin, none⟩
        ⟨some "e1", some "123", some "Bob", some "not-a-date", some "M",
          none, none, none, none⟩ 5).1 = Resp.okCreated 0 0 ∧
    (checkin ⟨[⟨"e1", "Rally", "R", none, none, 1⟩], [], [], 0, 0⟩
        ⟨1, UserRole.admin, none⟩
        ⟨some "e1", some "123", some "Bob", some "not-a-date", some "M",
          none, none, none, none⟩ 5).2.participants ≠ [] := by
  decide

/-- Claim C2 evaluated on the code: a race in which the optimistic pre check
of the handler passes, a rival request then commits the log row for the same
participant, event and day triple, and the save of this handler is rejected
by the unique index.  The handler answers 500 Internal server error through
its generic catch, not the AlreadyCheckedIn conflict the claim requires. -/
theorem c2_constraint_violation_answers_500 :
    (checkinWith
        (fun s => { s with
          logs := (⟨99, 7, "e1", 2, 0, 4⟩ : CheckInLog) :: s.logs
          nextLogId := s.nextLogId + 1 })
        ⟨[⟨"e1", "Rally", "R", none, none, 1⟩],
          [⟨7, "123", "Alice", some 7300, "F", none, none, none, none, "e1"⟩],
          [], 8, 0⟩
        ⟨1, UserRole.admin, none⟩
        ⟨some "e1", some "123", some "Alice", some "7300", some "F",
          none, none, none, none⟩ 5).1 = Resp.internalErr ∧
      Resp.internalErr ≠ Resp.alreadyCheckedIn := by
  decide

theorem resolve_events (s : Store) (eid : String) (b : CheckinBody) :
    (resolveParticipant s eid b).2.events = s.events := by
  unfold resolveParticipant
  cases findByKey s.participants eid (b.idNumber.getD "") <;> rfl

theorem resolve_logs (s : Store) (eid : String) (b : CheckinBody) :
    (resolveParticipant s eid b).2.logs = s.logs := by
  unfold resolveParticipant
  cases findByKey s.participants eid (b.idNumber.getD "") <;> rfl

theorem resolve_nextLogId (s : Store) (eid : String) (b : CheckinBody) :
    (resolveParticipant s eid b).2.nextLogId = s.nextLogId := by
  unfold resolveParticipant
  cases findByKey s.participants eid (b.idNumber.getD "") <;> rfl

theorem resolve_of_none {s : Store} {eid idn : String} {b : CheckinBody}
    (hi : b.idNumber = some idn) (hfind : findByKey s.participants eid idn = none) :
    resolveParticipant s eid b =
      (freshParticipant s eid b,
        ⟨s.events, freshParticipant s eid b :: s.participants, s.logs,
          s.nextPid + 1, s.nextLogId⟩) := by
  unfold resolveParticipant
  rw [hi]
  simp only [Option.getD_some]
  rw [hfind]

theorem resolve_of_some {s : Store} {eid idn : String} {b : CheckinBody} {q : Participant}
    (hi : b.idNumber = some idn) (hfind : findByKey s.participants eid idn = some q) :
    resolveParticipant s eid b =
      (demAppl b q,
        ⟨s.events,
          s.participants.map fun r => if r.id == q.id then demAppl b q else r,
          s.logs, s.nextPid, s.nextLogId⟩) := by
  unfold resolveParticipant
  rw [hi]
  simp only [Option.getD_some]
  rw [hfind]

theorem checkinLedger_id_eq (pr : Participant × Store) (u : User) (eid : String) (now : Nat) :
    checkinLedger id pr u eid now =
      if hasTriple pr.2.logs pr.1.id eid (dayOf now) then (Resp.alreadyCheckedIn, pr.2)
      else
        (Resp.okCreated pr.2.nextLogId pr.1.id,
          ⟨pr.2.events, pr.2.participants,
            (⟨pr.2.nextLogId, pr.1.id, eid, u.id, dayOf now, now⟩ : CheckInLog) :: pr.2.logs,
            pr.2.nextPid, pr.2.nextLogId + 1⟩) := by
  unfold checkinLedger
  simp only [id_eq]
  cases hguard : hasTriple pr.2.logs pr.1.id eid (dayOf now) with
  | true => rfl
  | false =>
    unfold insertLog
    dsimp only
    rw [hguard]
    rfl

theorem checkin_eq {s : Store} {u : User} {b : CheckinBody} {now : Nat} {ev : Event}
    {eid idn : String} (hb : validBody b eid idn) (hev : findEvent s eid = some ev)
    (hacc : checkEventAccess ev u = true) :
    checkin s u b now = checkinLedger id (resolveParticipant s eid b) u eid now := by
  have hp := requiredPresent_of_valid hb
  have he := hb.1
  unfold checkin checkinWith
  rw [hp, he, Option.getD_some, hev]
  dsimp only
  rw [hacc]
  rfl

theorem findEvent_congr {s s2 : Store} (h : s2.events = s.events) (eid : String) :
    findEvent s2 eid = findEvent s eid := by
  unfold findEvent
  rw [h]

theorem findByKey_cons_pos {p : Participant} {ps : List Participant} {eid idn : String}
    (h : keyMatch eid idn p = true) : findByKey (p :: ps) eid idn = some p :=
  List.find?_cons_of_pos ps h

theorem findByKey_cons_neg {p : Participant} {ps : List Participant} {eid idn : String}
    (h : keyMatch eid idn p = false) :
    findByKey (p :: ps) eid idn = findByKey ps eid idn :=
  List.find?_cons_of_neg ps (by simp [h])

theorem keyMatch_fresh {s : Store} {eid idn : String} {b : CheckinBody}
    (hi : b.idNumber = some idn) : keyMatch eid idn (freshParticipant s eid b) = true := by
  simp [keyMatch, freshParticipant, hi]

theorem keyMatch_demAppl (eid idn : String) (b : CheckinBody) (q : Participant) :
    keyMatch eid idn (demAppl b q) = keyMatch eid idn q :=
  rfl

theorem hasTriple_false_of_pid {ls : List CheckInLog} {pid : Nat} {eid : String} {d : Nat}
    (h : ∀ l ∈ ls, l.participantId ≠ pid) : hasTriple ls pid eid d = false := by
  cases hany : hasTriple ls pid eid d with
  | false => rfl
  | true =>
    obtain ⟨l, hl, hm⟩ := List.any_eq_true.mp hany
    rw [tripleMatch, Bool.and_eq_true, Bool.and_eq_true] at hm
    exact absurd (by exact of_decide_eq_true hm.1.1) (h l hl)

theorem hasTriple_cons_pos {l : CheckInLog} {ls : List CheckInLog} {pid : Nat}
    {eid : String} {d : Nat} (h : tripleMatch l pid eid d = true) :
    hasTriple (l :: ls) pid eid d = true := by
  rw [hasTriple, List.any_cons, h, Bool.true_or]

theorem hasTriple_cons_neg {l : CheckInLog} {ls : List CheckInLog} {pid : Nat}
    {eid : String} {d : Nat} (h : tripleMatch l pid eid d = false) :
    hasTriple (l :: ls) pid eid d = hasTriple ls pid eid d := by
  rw [hasTriple, List.any_cons, h, Bool.false_or]
  rfl

/-- Claim C3: for a participant, event, calendar day triple seen for the
first time, the first check in is answered 201 and appends the attendance
row; a repeat for the same triple on the same day is answered 400
AlreadyCheckedIn and appends no attendance row; a check in for the same
eventId and idNumber on a later day is answered 201 with a new log row that
reuses the same participant id, returned in the response body. -/
theorem c3_day_scenario (s0 : Store) (u : User) (ev : Event) (b1 b2 b3 : CheckinBody)
    (eid idn : String) (t1 t2 t3 : Nat)
    (hb1 : validBody b1 eid idn) (hb2 : validBody b2 eid idn) (hb3 : validBody b3 eid idn)
    (hev : findEvent s0 eid = some ev) (hacc : checkEventAccess ev u = true)
    (hfresh0 : findByKey s0.participants eid idn = none)
    (hnolog : ∀ l ∈ s0.logs, l.participantId ≠ s0.nextPid)
    (hday2 : dayOf t2 = dayOf t1) (hday3 : dayOf t1 < dayOf t3) :
    (checkin s0 u b1 t1).1 = Resp.okCreated s0.nextLogId s0.nextPid ∧
    (∃ l ∈ (checkin s0 u b1 t1).2.logs,
      l.participantId = s0.nextPid ∧ l.eventId = eid ∧ l.checkInDate = dayOf t1) ∧
    (checkin (checkin s0 u b1 t1).2 u b2 t2).1 = Resp.alreadyCheckedIn ∧
    (checkin (checkin s0 u b1 t1).2 u b2 t2).2.logs = (checkin s0 u b1 t1).2.logs ∧
    (checkin (checkin (checkin s0 u b1 t1).2 u b2 t2).2 u b3 t3).1 =
      Resp.okCreated (s0.nextLogId + 1) s0.nextPid ∧
    (checkin (checkin (checkin s0 u b1 t1).2 u b2 t2).2 u b3 t3).2.logs.length =
      (checkin (checkin s0 u b1 t1).2 u b2 t2).2.logs.length + 1 := by
  have hres1 := resolve_of_none hb1.2.1 hfresh0
  have hg1 : hasTriple s0.logs (freshParticipant s0 eid b1).id eid (dayOf t1) = false :=
    hasTriple_false_of_pid (fun l hl => hnolog l hl)
  have hc1 : checkin s0 u b1 t1 =
      (Resp.okCreated s0.nextLogId s0.nextPid,
        ⟨s0.events, freshParticipant s0 eid b1 :: s0.participants,
          (⟨s0.nextLogId, s0.nextPid, eid, u.id, dayOf t1, t1⟩ : CheckInLog) :: s0.logs,
          s0.nextPid + 1, s0.nextLogId + 1⟩) := by
    rw [checkin_eq hb1 hev hacc, hres1, checkinLedger_id_eq]
    dsimp only
    rw [hg1]
    rfl
  have hev1 : findEvent
      (⟨s0.events, freshParticipant s0 eid b1 :: s0.participants,
        (⟨s0.nextLogId, s0.nextPid, eid, u.id, dayOf t1, t1⟩ : CheckInLog) :: s0.logs,
        s0.nextPid + 1, s0.nextLogId + 1⟩ : Store) eid = some ev :=
    (findEvent_congr rfl eid).trans hev
  have hfind1 : findByKey (freshParticipant s0 eid b1 :: s0.participants) eid idn =
      some (freshParticipant s0 eid b1) :=
    findByKey_cons_pos (keyMatch_fresh hb1.2.1)
  have hres2 := resolve_of_some (s :=
      ⟨s0.events, freshParticipant s0 eid b1 :: s0.participants,
        (⟨s0.nextLogId, s0.nextPid, eid, u.id, dayOf t1, t1⟩ : CheckInLog) :: s0.logs,
        s0.nextPid + 1, s0.nextLogId + 1⟩) hb2.2.1 hfind1
  have hg2 : hasTriple
      ((⟨s0.nextLogId, s0.nextPid, eid, u.id, dayOf t1, t1⟩ : CheckInLog) :: s0.logs)
      ((demAppl b2 (freshParticipant s0 eid b1)).id) eid (dayOf t2) = true :=
    hasTriple_cons_pos (by simp [tripleMatch, demAppl, freshParticipant, hday2])
  have hc2 : checkin
      (⟨s0.events, freshParticipant s0 eid b1 :: s0.participants,
        (⟨s0.nextLogId, s0.nextPid, eid, u.id, dayOf t1, t1⟩ : CheckInLog) :: s0.logs,
        s0.nextPid + 1, s0.nextLogId + 1⟩ : Store) u b2 t2 =
      (Resp.alreadyCheckedIn,
        ⟨s0.events,
          (freshParticipant s0 eid b1 :: s0.participants).map fun r =>
            if r.id == (freshParticipant s0 eid b1).id
            then demAppl b2 (freshParticipant s0 eid b1) else r,
          (⟨s0.nextLogId, s0.nextPid, eid, u.id, dayOf t1, t1⟩ : CheckInLog) :: s0.logs,
          s0.nextPid + 1, s0.nextLogId + 1⟩) := by
    rw [checkin_eq hb2 hev1 hacc, hres2, checkinLedger_id_eq]
    dsimp only
    rw [hg2]
    rfl
  have hev2 : findEvent
      (⟨s0.events,
        (freshParticipant s0 eid b1 :: s0.participants).map fun r =>
          if r.id == (freshParticipant s0 eid b1).id
          then demAppl b2 (freshParticipant s0 eid b1) else r,
        (⟨s0.nextLogId, s0.nextPid, eid, u.id, dayOf t1, t1⟩ : CheckInLog) :: s0.logs,
        s0.nextPid + 1, s0.nextLogId + 1⟩ : Store) eid = some ev :=
    (findEvent_congr rfl eid).trans hev
  have hhead : (if (freshParticipant s0 eid b1).id == (freshParticipant s0 eid b1).id
      then demAppl b2 (freshParticipant s0 eid b1) else freshParticipant s0 eid b1) =
      demAppl b2 (freshParticipant s0 eid b1) := by
    simp
  have hfind2 : findByKey
      ((freshParticipant s0 eid b1 :: s0.participants).map fun r =>
        if r.id == (freshParticipant s0 eid b1).id
        then demAppl b2 (freshParticipant s0 eid b1) else r) eid idn =
      some (demAppl b2 (freshParticipant s0 eid b1)) := by
    rw [List.map_cons, hhead]
    exact findByKey_cons_pos (by rw [keyMatch_demAppl]; exact keyMatch_fresh hb1.2.1)
  have hres3 := resolve_of_some (s :=
      ⟨s0.events,
        (freshParticipant s0 eid b1 :: s0.participants).map fun r =>
          if r.id == (freshParticipant s0 eid b1).id
          then demAppl b2 (freshParticipant s0 eid b1) else r,
        (⟨s0.nextLogId, s0.nextPid, eid, u.id, dayOf t1, t1⟩ : CheckInLog) :: s0.logs,
        s0.nextPid + 1, s0.nextLogId + 1⟩) hb3.2.1 hfind2
  have hm3 : tripleMatch (⟨s0.nextLogId, s0.nextPid, eid, u.id, dayOf t1, t1⟩ : CheckInLog)
      ((demAppl b3 (demAppl b2 (freshParticipant s0 eid b1))).id) eid (dayOf t3) = false := by
    simp [tripleMatch, demAppl, freshParticipant, Nat.ne_of_lt hday3]
  have hg3 : hasTriple
      ((⟨s0.nextLogId, s0.nextPid, eid, u.id, dayOf t1, t1⟩ : CheckInLog) :: s0.logs)
      ((demAppl b3 (demAppl b2 (freshParticipant s0 eid b1))).id) eid (dayOf t3) = false := by
    rw [hasTriple_cons_neg hm3]
    exact hasTriple_false_of_pid (fun l hl => hnolog l hl)
  rw [hc1]
  dsimp only
  rw [hc2]
  dsimp only
  rw [checkin_eq hb3 hev2 hacc, hres3, checkinLedger_id_eq]
  dsimp only
  rw [hg3]
  refine ⟨rfl, ⟨⟨s0.nextLogId, s0.nextPid, eid, u.id, dayOf t1, t1⟩,
    List.mem_cons_self _ _, rfl, rfl, rfl⟩, rfl, rfl, rfl, rfl⟩

theorem checkin_store_participants {s : Store} {u : User} {b : CheckinBody} {now : Nat}
    {ev : Event} {eid idn : String} (hb : validBody b eid idn)
    (hev : findEvent s eid = some ev) (hacc : checkEventAccess ev u = true) :
    (checkin s u b now).2.participants = (resolveParticipant s eid b).2.participants := by
  rw [checkin_eq hb hev hacc, checkinLedger_id_eq]
  split <;> rfl

theorem checkin_store_events {s : Store} {u : User} {b : CheckinBody} {now : Nat}
    {ev : Event} {eid idn : String} (hb : validBody b eid idn)
    (hev : findEvent s eid = some ev) (hacc : checkEventAccess ev u = true) :
    (checkin s u b now).2.events = s.events := by
  rw [checkin_eq hb hev hacc, checkinLedger_id_eq]
  split
  · exact resolve_events s eid b
  · exact resolve_events s eid b

theorem findByKey_map_update {ps : List Participant} {eid idn : String} {q p2 : Participant}
    (hpk : pkUnique ps) (hfind : findByKey ps eid idn = some q)
    (hmatch : keyMatch eid idn p2 = true) (hid : p2.id = q.id) :
    findByKey (ps.map fun r => if r.id == q.id then p2 else r) eid idn = some p2 := by
  induction ps with
  | nil => exact absurd hfind (by simp [findByKey])
  | cons a t ih =>
    obtain ⟨hha, hpt⟩ := List.pairwise_cons.mp hpk
    rw [List.map_cons]
    cases hka : keyMatch eid idn a with
    | true =>
      have ha : findByKey (a :: t) eid idn = some a := findByKey_cons_pos hka
      rw [ha] at hfind
      injection hfind with hqa
      subst hqa
      have hif : (if a.id == a.id then p2 else a) = p2 := by simp
      rw [hif]
      exact findByKey_cons_pos hmatch
    | false =>
      have hfind2 : findByKey t eid idn = some q := by
        rw [findByKey_cons_neg hka] at hfind
        exact hfind
      have hqmem : q ∈ t := List.mem_of_find?_eq_some hfind2
      have hane : a.id ≠ q.id := hha q hqmem
      have hif : (if a.id == q.id then p2 else a) = a := by simp [hane]
      rw [hif, findByKey_cons_neg hka]
      exact ih hpt hfind2

theorem pkUnique_map_update {ps : List Participant} {q p2 : Participant} (hid : p2.id = q.id)
    (h : pkUnique ps) : pkUnique (ps.map fun r => if r.id == q.id then p2 else r) := by
  refine List.pairwise_map.mpr (h.imp ?_)
  intro a b hab
  by_cases ha : a.id = q.id <;> by_cases he : b.id = q.id
  · exact absurd (ha.trans he.symm) hab
  · have ea : (if a.id == q.id then p2 else a) = p2 := by simp [ha]
    have eb : (if b.id == q.id then p2 else b) = b := by simp [he]
    rw [ea, eb, hid, ← ha]
    exact hab
  · have ea : (if a.id == q.id then p2 else a) = a := by simp [ha]
    have eb : (if b.id == q.id then p2 else b) = p2 := by simp [he]
    rw [ea, eb, hid, ← he]
    exact hab
  · have ea : (if a.id == q.id then p2 else a) = a := by simp [ha]
    have eb : (if b.id == q.id then p2 else b) = b := by simp [he]
    rw [ea, eb]
    exact hab

theorem checkin_key_step_none (now : Nat) {s : Store} {u : User} {b : CheckinBody}
    {ev : Event} {eid idn : String} (hb : validBody b eid idn)
    (hev : findEvent s eid = some ev) (hacc : checkEventAccess ev u = true)
    (hpk : pkUnique s.participants)
    (hfind : findByKey s.participants eid idn = none)
    (hfresh : ∀ q ∈ s.participants, q.id ≠ s.nextPid) :
    findByKey (checkin s u b now).2.participants eid idn =
        some (freshParticipant s eid b) ∧
      pkUnique (checkin s u b now).2.participants := by
  have hparts : (checkin s u b now).2.participants =
      freshParticipant s eid b :: s.participants := by
    rw [checkin_store_participants hb hev hacc, resolve_of_none hb.2.1 hfind]
  rw [hparts]
  refine ⟨findByKey_cons_pos (keyMatch_fresh hb.2.1), List.pairwise_cons.mpr ⟨?_, hpk⟩⟩
  intro q hq
  exact (hfresh q hq).symm

theorem checkin_key_step_some (now : Nat) {s : Store} {u : User} {b : CheckinBody}
    {ev : Event} {eid idn : String} {q : Participant} (hb : validBody b eid idn)
    (hev : findEvent s eid = some ev) (hacc : checkEventAccess ev u = true)
    (hpk : pkUnique s.participants)
    (hfind : findByKey s.participants eid idn = some q) :
    findByKey (checkin s u b now).2.participants eid idn = some (demAppl b q) ∧
      pkUnique (checkin s u b now).2.participants := by
  have hparts : (checkin s u b now).2.participants =
      s.participants.map fun r => if r.id == q.id then demAppl b q else r := by
    rw [checkin_store_participants hb hev hacc, resolve_of_some hb.2.1 hfind]
  rw [hparts]
  refine ⟨findByKey_map_update hpk hfind ?_ rfl, pkUnique_map_update rfl hpk⟩
  rw [keyMatch_demAppl]
  exact List.find?_some hfind

/-- Claim C6: the participant resolution step of check in is key idempotent
but last write wins in content: for one eventId and idNumber, two successive
check in calls with possibly different demographic payloads leave a
participant with the same identifier under that key, and after the second
call the stored demographic fields equal exactly the second payload, as
normalised by the handler. -/
theorem c6_key_idempotent_lastwrite (s0 : Store) (u : User) (ev : Event)
    (b1 b2 : CheckinBody) (eid idn : String) (t1 t2 : Nat)
    (hb1 : validBody b1 eid idn) (hb2 : validBody b2 eid idn)
    (hev : findEvent s0 eid = some ev) (hacc : checkEventAccess ev u = true)
    (hpk : pkUnique s0.participants)
    (hfresh : ∀ q ∈ s0.participants, q.id ≠ s0.nextPid) :
    ∃ p1 p2 : Participant,
      findByKey (checkin s0 u b1 t1).2.participants eid idn = some p1 ∧
      findByKey (checkin (checkin s0 u b1 t1).2 u b2 t2).2.participants eid idn = some p2 ∧
      p2.id = p1.id ∧
      p2.name = b2.name.getD "" ∧
      p2.dateOfBirth = jsNewDate (b2.dateOfBirth.getD "") ∧
      p2.sex = b2.sex.getD "" ∧
      p2.county = orNull b2.county ∧
      p2.constituency = orNull b2.constituency ∧
      p2.ward = orNull b2.ward ∧
      p2.pollingCenter = orNull b2.pollingCenter := by
  have hev1 : findEvent (checkin s0 u b1 t1).2 eid = some ev :=
    (findEvent_congr (checkin_store_events hb1 hev hacc) eid).trans hev
  cases hf0 : findByKey s0.participants eid idn with
  | none =>
    obtain ⟨hfind1, hpk1⟩ := checkin_key_step_none t1 hb1 hev hacc hpk hf0 hfresh
    obtain ⟨hfind2, -⟩ := checkin_key_step_some t2 hb2 hev1 hacc hpk1 hfind1
    exact ⟨freshParticipant s0 eid b1, demAppl b2 (freshParticipant s0 eid b1),
      hfind1, hfind2, rfl, rfl, rfl, rfl, rfl, rfl, rfl, rfl⟩
  | some q =>
    obtain ⟨hfind1, hpk1⟩ := checkin_key_step_some t1 hb1 hev hacc hpk hf0
    obtain ⟨hfind2, -⟩ := checkin_key_step_some t2 hb2 hev1 hacc hpk1 hfind1
    exact ⟨demAppl b1 q, demAppl b2 (demAppl b1 q),
      hfind1, hfind2, rfl, rfl, rfl, rfl, rfl, rfl, rfl, rfl⟩

/-- Witness for C3 at concrete inputs: two check ins on day zero, then one on
the following day. -/
theorem c3_day_scenario_witness :
    (checkin wStore wOwner wBody 0).1 = Resp.okCreated 0 0 ∧
    (∃ l ∈ (checkin wStore wOwner wBody 0).2.logs,
      l.participantId = 0 ∧ l.eventId = "e1" ∧ l.checkInDate = dayOf 0) ∧
    (checkin (checkin wStore wOwner wBody 0).2 wOwner wBody 1).1 = Resp.alreadyCheckedIn ∧
    (checkin (checkin wStore wOwner wBody 0).2 wOwner wBody 1).2.logs =
      (checkin wStore wOwner wBody 0).2.logs ∧
    (checkin (checkin (checkin wStore wOwner wBody 0).2 wOwner wBody 1).2
        wOwner wBody 86400).1 = Resp.okCreated (0 + 1) 0 ∧
    (checkin (checkin (checkin wStore wOwner wBody 0).2 wOwner wBody 1).2
        wOwner wBody 86400).2.logs.length =
      (checkin (checkin wStore wOwner wBody 0).2 wOwner wBody 1).2.logs.length + 1 :=
  c3_day_scenario wStore wOwner wEvent wBody wBody wBody "e1" "123" 0 1 86400
    (by decide) (by decide) (by decide) (by decide) (by decide) (by decide)
    (by decide) (by decide) (by decide)

/-- Witness for C6 at concrete inputs: same key, different demographics in
the second call. -/
theorem c6_key_idempotent_lastwrite_witness :
    ∃ p1 p2 : Participant,
      findByKey (checkin wStore wOwner wBody 0).2.participants "e1" "123" = some p1 ∧
      findByKey (checkin (checkin wStore wOwner wBody 0).2 wOwner wBody2 1).2.participants
          "e1" "123" = some p2 ∧
      p2.id = p1.id ∧
      p2.name = wBody2.name.getD "" ∧
      p2.dateOfBirth = jsNewDate (wBody2.dateOfBirth.getD "") ∧
      p2.sex = wBody2.sex.getD "" ∧
      p2.county = orNull wBody2.county ∧
      p2.constituency = orNull wBody2.constituency ∧
      p2.ward = orNull wBody2.ward ∧
      p2.pollingCenter = orNull wBody2.pollingCenter :=
  c6_key_idempotent_lastwrite wStore wOwner wEvent wBody wBody2 "e1" "123" 0 1
    (by decide) (by decide) (by decide) (by decide) (by decide) (by decide)

/-- Claim C7 as amended: the filters passed to the external voter lookup are
built only from the event: the lookup fails with 400 when the county of the
event is empty; otherwise the gateway is called with the county always
included, the constituency included exactly when set and non empty on the
event, and the ward included exactly when set and non empty on the event,
independently of the constituency.  In particular a ward is forwarded even
when the constituency is unset, which refutes the claim as stated. -/
theorem c7_filters_amended (s : Store) (u : User) (b : SearchBody) (ev : Event)
    (hte : truthy b.eventId = true) (hti : truthy b.idNumber = true)
    (hev : findEvent s (b.eventId.getD "") = some ev)
    (hacc : checkEventAccess ev u = true) :
    (ev.county = "" → searchFilters s u b = Except.error Resp.preconditionErr) ∧
    (ev.county ≠ "" →
      ∃ f : Filters, searchFilters s u b = Except.ok f ∧
        f.county = ev.county ∧
        (truthy ev.constituency = true → f.constituency = ev.constituency) ∧
        (truthy ev.constituency = false → f.constituency = none) ∧
        (truthy ev.ward = true → f.ward = ev.ward) ∧
        (truthy ev.ward = false → f.ward = none)) := by
  have hbase : searchFilters s u b =
      (if ev.county == "" then Except.error Resp.preconditionErr
       else Except.ok ⟨ev.county,
         if truthy ev.constituency then ev.constituency else none,
         if truthy ev.ward then ev.ward else none⟩) := by
    unfold searchFilters
    rw [hte, hti, hev]
    dsimp only
    rw [hacc]
    rfl
  constructor
  · intro hc
    rw [hbase, if_pos (by simp [hc])]
  · intro hc
    rw [hbase, if_neg (by simp [hc])]
    refine ⟨_, rfl, rfl, ?_, ?_, ?_, ?_⟩
    · intro h
      show (if truthy ev.constituency then ev.constituency else none) = ev.constituency
      rw [if_pos h]
    · intro h
      show (if truthy ev.constituency then ev.constituency else none) = none
      rw [if_neg (by simp [h])]
    · intro h
      show (if truthy ev.ward then ev.ward else none) = ev.ward
      rw [if_pos h]
    · intro h
      show (if truthy ev.ward then ev.ward else none) = none
      rw [if_neg (by simp [h])]

/-- Counterexample for C7 as stated: an event with county R, no constituency
and ward L; the route calls the gateway with the county and the ward filter
together, not with the county filter alone, so the ward is forwarded without
a constituency. -/
theorem c7_ward_without_constituency :
    searchFilters ⟨[⟨"e1", "Rally", "R", none, some "L", 1⟩], [], [], 0, 0⟩
        ⟨1, UserRole.admin, none⟩ ⟨some "e1", some "123"⟩ =
      Except.ok ⟨"R", none, some "L"⟩ ∧
      (Filters.mk "R" none (some "L")).ward ≠ none :=
  ⟨rfl, by decide⟩

/-- Witness for C7 on an event with county and constituency set and ward
unset. -/
theorem c7_filters_amended_witness :
    (("R" : String) = "" →
      searchFilters ⟨[⟨"e2", "Rally", "R", some "C", none, 1⟩], [], [], 0, 0⟩
        ⟨1, UserRole.admin, none⟩ ⟨some "e2", some "123"⟩ =
        Except.error Resp.preconditionErr) ∧
    (("R" : String) ≠ "" →
      ∃ f : Filters,
        searchFilters ⟨[⟨"e2", "Rally", "R", some "C", none, 1⟩], [], [], 0, 0⟩
          ⟨1, UserRole.admin, none⟩ ⟨some "e2", some "123"⟩ = Except.ok f ∧
        f.county = "R" ∧
        (truthy (some "C") = true → f.constituency = some "C") ∧
        (truthy (some "C") = false → f.constituency = none) ∧
        (truthy (none : Option String) = true → f.ward = none) ∧
        (truthy (none : Option String) = false → f.ward = none)) :=
  c7_filters_amended ⟨[⟨"e2", "Rally", "R", some "C", none, 1⟩], [], [], 0, 0⟩
    ⟨1, UserRole.admin, none⟩ ⟨some "e2", some "123"⟩
    ⟨"e2", "Rally", "R", some "C", none, 1⟩
    (by decide) (by decide) (by decide) (by decide)

/-- Claim C9 evaluated on the code: the creating Owner deletes its own event
which has one dependent participant.  The participants ManyToOne relation
towards events declares no onDelete action, so the participant row blocks
the delete at the storage layer and the route answers 500 through its
generic catch; nothing is removed.  The claim expects 200 with the event and
its dependent rows gone. -/
theorem c9_delete_blocked_by_participants :
    deleteEvent
        ⟨[⟨"e9", "Rally", "R", none, none, 1⟩],
          [⟨3, "555", "Carol", some 7300, "F", none, none, none, none, "e9"⟩],
          [], 4, 0⟩
        ⟨1, UserRole.admin, none⟩ "e9" =
      (Resp.internalErr,
        ⟨[⟨"e9", "Rally", "R", none, none, 1⟩],
          [⟨3, "555", "Carol", some 7300, "F", none, none, none, none, "e9"⟩],
          [], 4, 0⟩) ∧
      (⟨[⟨"e9", "Rally", "R", none, none, 1⟩],
          [⟨3, "555", "Carol", some 7300, "F", none, none, none, none, "e9"⟩],
          [], 4, 0⟩ : Store).participants ≠ [] := by
  decide

end ElectionEvents
